import Mathlib

/-!
Shallow embedding of the esimdb_scraper repository (src/source/esimdb_scraper.py
and src/source/run.py) together with proofs settling the frozen claims.

Python values flowing through the scraper are modelled by the inductive type
`Value` (floats as exact rationals); absent dictionary keys and explicit JSON
nulls are both represented by `Option.none` at field level, matching the
behaviour of `dict.get` followed by `is None` checks.
-/

/-- A JSON-ish Python value as it appears in API responses.  Floats are
modelled as exact rationals. -/
inductive Value where
  | vnull
  | vbool (b : Bool)
  | vint (n : Int)
  | vfloat (q : ℚ)
  | vstr (s : String)
deriving DecidableEq, Repr

/-- Python truthiness of a `Value` (used by the `or` chains in the source). -/
def pyTruthy : Value → Bool
  | .vnull => false
  | .vbool b => b
  | .vint n => decide (n ≠ 0)
  | .vfloat q => decide (q ≠ 0)
  | .vstr s => decide (s ≠ "")

/-- ASCII lower-casing of one character, as done by `str.lower()` on the
unit tags appearing in the data. -/
def lowerChar (c : Char) : Char :=
  if 65 ≤ c.toNat ∧ c.toNat ≤ 90 then Char.ofNat (c.toNat + 32) else c

/-- Character list of `s.lower()` for a unit-tag string. -/
def lowerStr (s : String) : List Char := s.data.map lowerChar

/-- Leading- and trailing-whitespace removal on a character list; the kernel
of Python's `str.strip()`. -/
def trimChars (l : List Char) : List Char :=
  ((l.dropWhile Char.isWhitespace).reverse.dropWhile Char.isWhitespace).reverse

/-- Python's `str.strip()`. -/
def pyStrip (s : String) : String := String.mk (trimChars s.data)

/-- Digits of a numeric literal interpreted in base 10. -/
def digitsToNat (l : List Char) : ℕ :=
  l.foldl (fun a c => a * 10 + (c.toNat - 48)) 0

/-- Parse an unsigned decimal literal (`"12"`, `"12.5"`, `".5"`, `"5."`),
the plain-literal core of Python's `float()` on strings.  Exponents and
`inf`/`nan` spellings are outside the data handled by the scraper and are
not modelled. -/
def parseUnsigned? (l : List Char) : Option ℚ :=
  let intPart := l.takeWhile Char.isDigit
  let rest := l.dropWhile Char.isDigit
  match rest with
  | [] => if intPart = [] then none else some (digitsToNat intPart)
  | '.' :: frac =>
      if frac.all Char.isDigit ∧ (intPart ≠ [] ∨ frac ≠ []) then
        some ((digitsToNat intPart : ℚ) + (digitsToNat frac : ℚ) / (10 : ℚ) ^ frac.length)
      else none
  | _ => none

/-- Python `float()` applied to a string: strip, optional sign, decimal body. -/
def strToRat? (s : String) : Option ℚ :=
  match trimChars s.data with
  | '-' :: rest => (parseUnsigned? rest).map (fun q => -q)
  | '+' :: rest => parseUnsigned? rest
  | l => parseUnsigned? l

/-- Python `int()` applied to a string: strip, optional sign, digits only. -/
def strToInt? (s : String) : Option Int :=
  match trimChars s.data with
  | '-' :: rest =>
      if rest ≠ [] ∧ rest.all Char.isDigit then some (-(digitsToNat rest : Int)) else none
  | '+' :: rest =>
      if rest ≠ [] ∧ rest.all Char.isDigit then some ((digitsToNat rest : Int)) else none
  | l => if l ≠ [] ∧ l.all Char.isDigit then some ((digitsToNat l : Int)) else none

/-- Python `float()` on a `Value`; `none` models a raised
`TypeError`/`ValueError`. -/
def pyFloat? : Value → Option ℚ
  | .vnull => none
  | .vbool b => some (if b then 1 else 0)
  | .vint n => some (n : ℚ)
  | .vfloat q => some q
  | .vstr s => strToRat? s

/-- Truncation toward zero, the behaviour of Python `int()` on a float. -/
def ratTrunc (q : ℚ) : Int := if 0 ≤ q then ⌊q⌋ else ⌈q⌉

/-- Python `int()` on a `Value`; `none` models a raised
`TypeError`/`ValueError`. -/
def pyInt? : Value → Option Int
  | .vnull => none
  | .vbool b => some (if b then 1 else 0)
  | .vint n => some n
  | .vfloat q => some (ratTrunc q)
  | .vstr s => strToInt? s

/-- Python `round(x, 2)` modelled over exact rationals: round `100·x` to the
nearest integer and divide back.  (Python rounds float ties to even over a
binary representation; the claims under verification do not hinge on tie
behaviour, so the standard `round` on ℚ is used.) -/
def round2 (q : ℚ) : ℚ := ((round (q * 100) : ℤ) : ℚ) / 100

/-- One raw plan record as consumed by the validators: the dictionary keys
read anywhere in the source, each `none` when absent or JSON-null.  The
`prices` field is typed as a map, matching the `Dict` shape the source
reads it with. -/
structure Plan where
  id : Option Value
  provider : Option Value
  enName : Option Value
  name : Option Value
  usdPromoPrice : Option Value
  usdPrice : Option Value
  prices : Option (List (String × Value))
  capacity : Option Value
  capacityUnit : Option Value
  period : Option Value
deriving DecidableEq, Repr

/-- The all-absent plan record, a convenient base for concrete examples. -/
def emptyPlan : Plan :=
  { id := none, provider := none, enName := none, name := none,
    usdPromoPrice := none, usdPrice := none, prices := none,
    capacity := none, capacityUnit := none, period := none }

/-- `m.get(k)` on the USD price map, where an explicit null entry behaves
like an absent key under the `is None` check that follows in the source. -/
def priceMapGet (m : List (String × Value)) (k : String) : Option Value :=
  match m.lookup k with
  | some .vnull => none
  | some v => some v
  | none => none

/-- The price-selection chain of `validate_price`: first non-null of
`usdPromoPrice`, `usdPrice`, `prices["USD"]` (with `prices or {}`). -/
def selected_price (plan : Plan) : Option Value :=
  match plan.usdPromoPrice with
  | some v => some v
  | none =>
    match plan.usdPrice with
    | some v => some v
    | none => priceMapGet (plan.prices.getD []) ("USD")

/-- `validate_price` from esimdb_scraper.py: select, cast with `float()`,
reject negatives, round to 2 decimals. -/
def validate_price (plan : Plan) : Option ℚ :=
  match selected_price plan with
  | none => none
  | some v =>
    match pyFloat? v with
    | none => none
    | some x => if x < 0 then none else some (round2 x)

/-- The GB-conversion step of `validate_data_capacity`: by unit tag
(`mb`/`mib` divide by 1000, `gb`/`gib` pass through, any other string
divides by 1000 with a warning), or by the `≤ 25` heuristic when the tag
is absent or not a string. -/
def convertCapacity (capacityUnit : Option Value) (c : ℚ) : ℚ :=
  match capacityUnit with
  | some (.vstr u) =>
    if lowerStr u = ("mb").data ∨ lowerStr u = ("mib").data then c / 1000
    else if lowerStr u = ("gb").data ∨ lowerStr u = ("gib").data then c
    else c / 1000
  | _ => if c ≤ 25 then c else c / 1000

/-- `validate_data_capacity` from esimdb_scraper.py: cast with `float()`,
reject negatives, convert to GB with `convertCapacity`, round to 2
decimals.  (The source's `isinstance` re-check after `float()` is
vacuously true and the `> 1000 GB` check only logs.) -/
def validate_data_capacity (plan : Plan) : Option ℚ :=
  match plan.capacity with
  | none => none
  | some v =>
    match pyFloat? v with
    | none => none
    | some c =>
      if c < 0 then none
      else some (round2 (convertCapacity plan.capacityUnit c))

/-- `validate_validity_period` from esimdb_scraper.py: cast with `int()`,
reject negatives. -/
def validate_validity_period (plan : Plan) : Option Int :=
  match plan.period with
  | none => none
  | some v =>
    match pyInt? v with
    | none => none
    | some n => if n < 0 then none else some n

/-- Python `a or b` over an optionally-absent left operand. -/
def pyOr (a : Option Value) (b : Value) : Value :=
  match a with
  | some v => if pyTruthy v then v else b
  | none => b

/-- `validate_plan_name` from esimdb_scraper.py:
`(enName or name or "")`, then strip when it is a string, else `""`. -/
def validate_plan_name (plan : Plan) : String :=
  match pyOr plan.enName (pyOr plan.name (.vstr "")) with
  | .vstr s => pyStrip s
  | _ => ""

/-- The canonical normalized output row built by `validate_plan`. -/
structure NormalizedRow where
  country : String
  region : String
  provider : String
  plan_name : String
  price_usd : Option ℚ
  data_gb : Option ℚ
  validity_days : Option Int
deriving DecidableEq, Repr

/-- `validate_plan` from esimdb_scraper.py: merge the four independent field
validators with the caller-supplied context. -/
def validate_plan (plan : Plan) (provider_name country_name country_region : String) :
    NormalizedRow :=
  { country := country_name,
    region := country_region,
    provider := provider_name,
    plan_name := validate_plan_name plan,
    price_usd := validate_price plan,
    data_gb := validate_data_capacity plan,
    validity_days := validate_validity_period plan }

/-- One page of the `/countries/{slug}/data-plans` response as read by the
source: the declared page count, the per-page provider lookup (collapsed to
id → name, the only field the source reads from the inner dict), and the
`plans` / `featured` subsets (`none` models an absent or null field, which
the source's `or []` turns into the empty list). -/
structure PageResponse where
  numberOfPages : Option Value
  providers : List (String × String)
  plans : Option (List Plan)
  featured : Option (List Plan)

/-- `int(data.get("numberOfPages", 1))` with its surrounding
`try/except`: absent defaults to 1 silently, an unparseable value defaults
to 1 and sets the warning flag (second component). -/
def parseNumberOfPages : Option Value → Int × Bool
  | none => (1, false)
  | some v =>
    match pyInt? v with
    | some n => (n, false)
    | none => (1, true)

/-- `combined_plans = plans_main + plans_featured` for one page. -/
def combinedPlans (p : PageResponse) : List Plan :=
  p.plans.getD [] ++ p.featured.getD []

/-- Provider-name resolution for one plan against the page's lookup table:
`provider_id and provider_id in providers_map`, then the provider's name
(empty when unresolved). -/
def resolveProvider (providers : List (String × String)) (plan : Plan) : String :=
  match plan.provider with
  | none => ""
  | some v =>
    if pyTruthy v then
      match v with
      | .vstr pid =>
        match providers.lookup pid with
        | some nm => nm
        | none => ""
      | _ => ""
    else ""

/-- The per-page dedup-and-yield loop of `iter_country_plans`: walk the
combined plan list left to right; a plan with a non-null id is yielded only
when the id is not in the running `seen` set (which it then joins); a plan
without an id is always yielded.  Returns the yields (paired with resolved
provider names) and the updated `seen` set. -/
def dedupPlans (providers : List (String × String)) (seen : List Value) :
    List Plan → List (Plan × String) × List Value
  | [] => ([], seen)
  | plan :: rest =>
    match plan.id with
    | some pid =>
      if pid ∈ seen then dedupPlans providers seen rest
      else
        let r := dedupPlans providers (pid :: seen) rest
        ((plan, resolveProvider providers plan) :: r.1, r.2)
    | none =>
      let r := dedupPlans providers seen rest
      ((plan, resolveProvider providers plan) :: r.1, r.2)

/-- The provider-free shadow of `dedupPlans`, used to state and prove the
dedup invariant on the plan stream itself. -/
def dedupIds (seen : List Value) : List Plan → List Plan × List Value
  | [] => ([], seen)
  | plan :: rest =>
    match plan.id with
    | some pid =>
      if pid ∈ seen then dedupIds seen rest
      else
        let r := dedupIds (pid :: seen) rest
        (plan :: r.1, r.2)
    | none =>
      let r := dedupIds seen rest
      (plan :: r.1, r.2)

/-- The raw record stream of pages `p, p+1, …, p+c-1` in page order, each
page contributing its primary-then-featured merge. -/
def pageStream (resp : ℕ → PageResponse) : ℕ → ℕ → List Plan
  | _, 0 => []
  | p, c+1 => combinedPlans (resp p) ++ pageStream resp (p+1) c

/-- The dedup-and-yield traversal over pages `p, …, p+c-1`, threading the
`seen` set across page boundaries exactly as the source's single set does. -/
def collectPages (resp : ℕ → PageResponse) : ℕ → ℕ → List Value → List (Plan × String) × List Value
  | _, 0, seen => ([], seen)
  | p, c+1, seen =>
    let d := dedupPlans (resp p).providers seen (combinedPlans (resp p))
    let rest := collectPages resp (p+1) c d.2
    (d.1 ++ rest.1, rest.2)

/-- The `while number_of_pages is None or page <= number_of_pages` loop of
`iter_country_plans`, with explicit fuel standing in for the loop's own
termination (the theorems below show the chosen fuel is never exhausted).
Returns the fetched page indices, the yielded `(plan, provider)` stream,
and whether the page-count warning fired. -/
def iterLoop (resp : ℕ → PageResponse) :
    ℕ → ℕ → Option Int → List Value → List ℕ × List (Plan × String) × Bool
  | 0, _, _, _ => ([], [], false)
  | fuel+1, page, none, seen =>
    let data := resp page
    let pw := parseNumberOfPages data.numberOfPages
    let d := dedupPlans data.providers seen (combinedPlans data)
    let rest := iterLoop resp fuel (page+1) (some pw.1) d.2
    (page :: rest.1, d.1 ++ rest.2.1, pw.2 || rest.2.2)
  | fuel+1, page, some n, seen =>
    if (page : Int) ≤ n then
      let data := resp page
      let d := dedupPlans data.providers seen (combinedPlans data)
      let rest := iterLoop resp fuel (page+1) (some n) d.2
      (page :: rest.1, d.1 ++ rest.2.1, rest.2.2)
    else ([], [], false)

/-- `iter_country_plans` from esimdb_scraper.py, as a function of the page
oracle `resp`: start at page 1 with no page count and an empty seen set. -/
def iter_country_plans (resp : ℕ → PageResponse) : List ℕ × List (Plan × String) × Bool :=
  iterLoop resp ((parseNumberOfPages (resp 1).numberOfPages).1.toNat + 1) 1 none []

/-- The page-count value the first page declares (after `int()`/defaults). -/
def numPagesVal (resp : ℕ → PageResponse) : Int :=
  (parseNumberOfPages (resp 1).numberOfPages).1

/-- The number of pages the traversal actually visits. -/
def totalPages (resp : ℕ → PageResponse) : ℕ := (max (numPagesVal resp) 1).toNat

/-- Boolean test for carrying a given non-null identifier. -/
def hasId (v : Value) (p : Plan) : Bool := decide (p.id = some v)

/-- Boolean test for carrying no identifier. -/
def noId (p : Plan) : Bool := decide (p.id = none)

/-- The `for attempt in range(retries)` loop of `get_json`, traversing the
list of attempt indices.  `outcomes k` is the result of the k-th HTTP
attempt; `jitter k` is the `random.uniform(0, delay)` draw after a failed
attempt k.  Returns the list of back-off sleeps performed and the final
result (`ok none` models falling off the loop when `retries = 0`, where the
Python function returns `None`). -/
def getJsonLoop {E V : Type} (retries : ℕ) (delay : ℚ)
    (outcomes : ℕ → Except E V) (jitter : ℕ → ℚ) :
    List ℕ → List ℚ × Except E (Option V)
  | [] => ([], Except.ok none)
  | attempt :: rest =>
    match outcomes attempt with
    | Except.ok v => ([], Except.ok (some v))
    | Except.error e =>
      if attempt = retries - 1 then ([], Except.error e)
      else
        let r := getJsonLoop retries delay outcomes jitter rest
        ((delay * 2 ^ attempt + jitter attempt) :: r.1, r.2)

/-- `get_json` from esimdb_scraper.py as a function of the per-attempt
outcome oracle and the jitter draws. -/
def get_json {E V : Type} (retries : ℕ) (delay : ℚ)
    (outcomes : ℕ → Except E V) (jitter : ℕ → ℚ) : List ℚ × Except E (Option V) :=
  getJsonLoop retries delay outcomes jitter (List.range retries)

/-- `sanitize_filename` from esimdb_scraper.py: replace `/`, `\`, space by
`_`; keep alphanumerics, `_`, `-` and replace everything else by `_`;
lower-case the result. -/
def sanitize_filename (nm : String) : String :=
  let s1 := nm.data.map (fun c => if c = '/' ∨ c = '\\' ∨ c = ' ' then '_' else c)
  let s2 := s1.map (fun c => if c.isAlphanum ∨ c = '_' ∨ c = '-' then c else '_')
  String.mk (s2.map lowerChar)

/-- One country entity as produced by `fetch_countries`. -/
structure Country where
  slug : String
  name : String
  region : String
deriving DecidableEq, Repr

/-- The schema-version tag stamped onto every row. -/
def SCHEMA_VERSION : String := "1.0"

/-- One row of the written artifact: the normalized row plus the stamped
run metadata columns. -/
structure StampedRow where
  row : NormalizedRow
  scrape_date : String
  schema_version : String
deriving DecidableEq, Repr

/-- `scrape_country` from esimdb_scraper.py as a function of the collected
raw stream: validate every raw plan (the validators in this model are
total, so the per-plan `try/except` never skips), return `(True, 0)` with
no write when the result list is empty, else stamp the rows and emit one
write of the sanitized artifact name.  The pandas dtype coercions keep the
already-typed model values and are not re-modelled. -/
def scrape_country (country : Country) (stream : List (Plan × String))
    (scrape_date : String) : (Bool × ℕ) × List (String × List StampedRow) :=
  let plans_data := stream.map (fun pr => validate_plan pr.1 pr.2 country.name country.region)
  if plans_data = [] then ((true, 0), [])
  else
    let rows := plans_data.map (fun r => StampedRow.mk r scrape_date SCHEMA_VERSION)
    ((true, plans_data.length), [(sanitize_filename country.name ++ (".parquet"), rows)])

/-- Apply a list of artifact writes to a filesystem (a map from artifact
name to content); later writes overwrite earlier ones. -/
def applyWrites (ws : List (String × List StampedRow))
    (fs : String → Option (List StampedRow)) : String → Option (List StampedRow) :=
  ws.foldl (fun f w => fun nm => if nm = w.1 then some w.2 else f nm) fs

/-- The per-future accounting of `main`'s `as_completed` loop: an outcome is
either the `(success, num_plans)` the worker returned or the exception
`future.result()` re-raised (caught and counted as failed).  Returns
`(successful, failed, total_plans)`; the counts are order-insensitive sums,
so the completion-order list fully determines them. -/
def tallyOutcomes : List (Except String (Bool × ℕ)) → ℕ × ℕ × ℕ
  | [] => (0, 0, 0)
  | o :: rest =>
    let t := tallyOutcomes rest
    match o with
    | Except.ok r => if r.1 then (t.1 + 1, t.2.1, t.2.2 + r.2) else (t.1, t.2.1 + 1, t.2.2 + r.2)
    | Except.error _ => (t.1, t.2.1 + 1, t.2.2)

/-- The set of entity pipelines `main` submits to the pool, as a function of
the entry-point module's shutdown flag.  The source submits every country in
one dict comprehension and never reads the flag (which lives in run.py and
is not referenced by `main`), so the submission list is the country list
regardless of the flag. -/
def submitted_pipelines (shutdown_requested : Bool) (countries : List Country) :
    List Country := countries

/-- How one invocation of the scraper inside `run_scraper` ends. -/
inductive ScraperResult where
  | ok
  | keyboardInterrupt
  | failure
deriving DecidableEq, Repr

/-- The exit-code mapping of `run_scraper` in run.py: after `scraper()`
returns, the shutdown flag (as set by the signal handler) selects 130 over
0; `KeyboardInterrupt` gives 130; any other exception gives 1. -/
def run_scraper (shutdown_requested : Bool) (result : ScraperResult) : ℕ :=
  match result with
  | .ok => if shutdown_requested then 130 else 0
  | .keyboardInterrupt => 130
  | .failure => 1

/-- The source fields reconstructed from an already-normalized record: the
plan name as the English name, the price as the standard USD price field,
the capacity in gigabytes (with the matching `gb` unit tag), and the
validity period in days. -/
def reconstructed_plan (r : NormalizedRow) : Plan :=
  { id := none, provider := none,
    enName := some (.vstr r.plan_name), name := none,
    usdPromoPrice := none, usdPrice := r.price_usd.map .vfloat, prices := none,
    capacity := r.data_gb.map .vfloat, capacityUnit := some (.vstr ("gb")),
    period := r.validity_days.map .vint }

/-- A plan whose capacity is 500 with no unit tag (heuristic path). -/
def plan500 : Plan :=
  { emptyPlan with capacity := some (.vint 500) }

/-- A plan whose promo price is the integer 0. -/
def plan_zero_price : Plan :=
  { emptyPlan with usdPromoPrice := some (.vint 0) }

/-- A page response declaring `numberOfPages = 0`. -/
def page_np_zero : PageResponse :=
  { numberOfPages := some (.vint 0), providers := [], plans := none, featured := none }

/-- A page oracle answering `page_np_zero` everywhere. -/
def resp_np_zero : ℕ → PageResponse := fun _ => page_np_zero

/-- A page response with the page-count field absent. -/
def page_np_absent : PageResponse :=
  { numberOfPages := none, providers := [], plans := none, featured := none }

/-- A page oracle answering `page_np_absent` everywhere. -/
def resp_np_absent : ℕ → PageResponse := fun _ => page_np_absent

/-- A concrete country entity for concrete runs. -/
def demo_country : Country := { slug := "fr", name := "France", region := "Europe" }

theorem round2_idem (q : ℚ) : round2 (round2 q) = round2 q := by
  unfold round2
  have h : ((round (q * 100) : ℤ) : ℚ) / 100 * 100 = ((round (q * 100) : ℤ) : ℚ) := by
    field_simp
  rw [h, round_intCast]

theorem round2_nonneg (q : ℚ) (h : 0 ≤ q) : 0 ≤ round2 q := by
  unfold round2
  have h1 : (0 : ℤ) ≤ round (q * 100) := by
    rw [round_eq]
    exact Int.le_floor.mpr (by push_cast; linarith)
  exact div_nonneg (by exact_mod_cast h1) (by norm_num)

theorem dropWhile_head_not (p : Char → Bool) :
    ∀ (l : List Char) (a : Char), (l.dropWhile p).head? = some a → p a = false := by
  intro l
  induction l with
  | nil => intro a h; simp [List.dropWhile] at h
  | cons x xs ih =>
    intro a h
    by_cases hx : p x
    · rw [List.dropWhile_cons, if_pos hx] at h
      exact ih a h
    · rw [List.dropWhile_cons, if_neg hx] at h
      simp only [List.head?_cons, Option.some.injEq] at h
      subst h
      simpa using hx

theorem dropWhile_eq_self_of_head (p : Char → Bool) (l : List Char)
    (h : ∀ a, l.head? = some a → p a = false) : l.dropWhile p = l := by
  cases l with
  | nil => rfl
  | cons x xs =>
    have hx := h x rfl
    rw [List.dropWhile_cons, if_neg (by simp [hx])]

theorem getLast?_dropWhile (p : Char → Bool) :
    ∀ (l : List Char), l.dropWhile p ≠ [] → (l.dropWhile p).getLast? = l.getLast? := by
  intro l
  induction l with
  | nil => intro h; simp [List.dropWhile] at h
  | cons x xs ih =>
    intro h
    by_cases hx : p x
    · rw [List.dropWhile_cons, if_pos hx] at h ⊢
      rw [ih h]
      have hxs : xs ≠ [] := by
        intro hn; rw [hn] at h; simp [List.dropWhile] at h
      cases xs with
      | nil => exact absurd rfl hxs
      | cons y ys => simp [List.getLast?_cons_cons]
    · rw [List.dropWhile_cons, if_neg (by simp [hx])]

theorem trimChars_head (l : List Char) (a : Char)
    (h : (trimChars l).head? = some a) : Char.isWhitespace a = false := by
  unfold trimChars at h
  rw [List.head?_reverse] at h
  have hne : ((l.dropWhile Char.isWhitespace).reverse.dropWhile Char.isWhitespace) ≠ [] := by
    intro hn; rw [hn] at h; simp at h
  rw [getLast?_dropWhile _ _ hne, List.getLast?_reverse] at h
  exact dropWhile_head_not _ l a h

theorem trimChars_last (l : List Char) (a : Char)
    (h : (trimChars l).getLast? = some a) : Char.isWhitespace a = false := by
  unfold trimChars at h
  rw [List.getLast?_reverse] at h
  exact dropWhile_head_not _ _ a h

theorem trimChars_idem (l : List Char) : trimChars (trimChars l) = trimChars l := by
  have h1 : (trimChars l).dropWhile Char.isWhitespace = trimChars l :=
    dropWhile_eq_self_of_head _ _ (fun a ha => trimChars_head l a ha)
  have h2 : (trimChars l).reverse.dropWhile Char.isWhitespace = (trimChars l).reverse := by
    apply dropWhile_eq_self_of_head
    intro a ha
    rw [List.head?_reverse] at ha
    exact trimChars_last l a ha
  show (((trimChars l).dropWhile Char.isWhitespace).reverse.dropWhile Char.isWhitespace).reverse
      = trimChars l
  rw [h1, h2, List.reverse_reverse]

theorem pyStrip_idem (s : String) : pyStrip (pyStrip s) = pyStrip s := by
  show String.mk (trimChars (trimChars s.data)) = String.mk (trimChars s.data)
  rw [trimChars_idem]

theorem pyStrip_empty : pyStrip "" = "" := by decide

theorem validate_plan_name_fixed (plan : Plan) :
    pyStrip (validate_plan_name plan) = validate_plan_name plan := by
  unfold validate_plan_name
  cases pyOr plan.enName (pyOr plan.name (Value.vstr "")) with
  | vstr s => exact pyStrip_idem s
  | vnull => exact pyStrip_empty
  | vbool b => exact pyStrip_empty
  | vint n => exact pyStrip_empty
  | vfloat q => exact pyStrip_empty

theorem convertCapacity_nonneg (u : Option Value) (c : ℚ) (h : 0 ≤ c) :
    0 ≤ convertCapacity u c := by
  have h1000 : 0 ≤ c / 1000 := by positivity
  unfold convertCapacity
  split
  · split
    · exact h1000
    · split <;> assumption
  · split <;> assumption

theorem validate_price_cases (plan : Plan) :
    validate_price plan = none ∨
      ∃ x, validate_price plan = some x ∧ 0 ≤ x ∧ round2 x = x := by
  unfold validate_price
  cases selected_price plan with
  | none => exact Or.inl rfl
  | some v =>
    dsimp only
    cases pyFloat? v with
    | none => exact Or.inl rfl
    | some x =>
      dsimp only
      by_cases hx : x < 0
      · rw [if_pos hx]; exact Or.inl rfl
      · rw [if_neg hx]
        push_neg at hx
        exact Or.inr ⟨round2 x, rfl, round2_nonneg x hx, round2_idem x⟩

theorem validate_data_capacity_cases (plan : Plan) :
    validate_data_capacity plan = none ∨
      ∃ x, validate_data_capacity plan = some x ∧ 0 ≤ x ∧ round2 x = x := by
  unfold validate_data_capacity
  cases plan.capacity with
  | none => exact Or.inl rfl
  | some v =>
    dsimp only
    cases pyFloat? v with
    | none => exact Or.inl rfl
    | some c =>
      dsimp only
      by_cases hc : c < 0
      · rw [if_pos hc]; exact Or.inl rfl
      · rw [if_neg hc]
        push_neg at hc
        exact Or.inr ⟨_, rfl, round2_nonneg _ (convertCapacity_nonneg _ _ hc), round2_idem _⟩

theorem validate_validity_period_cases (plan : Plan) :
    validate_validity_period plan = none ∨
      ∃ n, validate_validity_period plan = some n ∧ 0 ≤ n := by
  unfold validate_validity_period
  cases plan.period with
  | none => exact Or.inl rfl
  | some v =>
    dsimp only
    cases pyInt? v with
    | none => exact Or.inl rfl
    | some n =>
      dsimp only
      by_cases hn : n < 0
      · rw [if_pos hn]; exact Or.inl rfl
      · rw [if_neg hn]; exact Or.inr ⟨n, rfl, by omega⟩

theorem dedupPlans_erase (providers : List (String × String)) :
    ∀ (l : List Plan) (seen : List Value),
      (dedupPlans providers seen l).1.map Prod.fst = (dedupIds seen l).1 ∧
      (dedupPlans providers seen l).2 = (dedupIds seen l).2 := by
  intro l
  induction l with
  | nil => intro seen; exact ⟨rfl, rfl⟩
  | cons plan rest ih =>
    intro seen
    cases hid : plan.id with
    | some pid =>
      by_cases hmem : pid ∈ seen
      · simp only [dedupPlans, dedupIds, hid, if_pos hmem]
        exact ih seen
      · simp only [dedupPlans, dedupIds, hid, if_neg hmem, List.map_cons]
        exact ⟨by rw [(ih (pid :: seen)).1], (ih (pid :: seen)).2⟩
    | none =>
      simp only [dedupPlans, dedupIds, hid, List.map_cons]
      exact ⟨by rw [(ih seen).1], (ih seen).2⟩

theorem dedupIds_append :
    ∀ (a b : List Plan) (seen : List Value),
      dedupIds seen (a ++ b) =
        ((dedupIds seen a).1 ++ (dedupIds (dedupIds seen a).2 b).1,
         (dedupIds (dedupIds seen a).2 b).2) := by
  intro a
  induction a with
  | nil =>
    intro b seen
    simp only [List.nil_append, dedupIds, Prod.mk.eta]
  | cons plan rest ih =>
    intro b seen
    cases hid : plan.id with
    | some pid =>
      by_cases hmem : pid ∈ seen
      · simp only [List.cons_append, dedupIds, hid, if_pos hmem]
        exact ih b seen
      · simp only [List.cons_append, dedupIds, hid, if_neg hmem, List.append_eq]
        rw [ih b (pid :: seen)]
    | none =>
      simp only [List.cons_append, dedupIds, hid, List.append_eq]
      rw [ih b seen]

theorem dedupIds_filter_some (v : Value) :
    ∀ (l : List Plan) (seen : List Value),
      (dedupIds seen l).1.filter (hasId v) =
        if v ∈ seen then [] else ((l.find? (hasId v)).toList) := by
  intro l
  induction l with
  | nil =>
    intro seen
    simp only [dedupIds, List.filter_nil, List.find?_nil, Option.toList_none]
    split <;> rfl
  | cons plan rest ih =>
    intro seen
    cases hid : plan.id with
    | some pid =>
      by_cases hvp : pid = v
      · subst hvp
        have hp : hasId pid plan = true := by simp [hasId, hid]
        by_cases hmem : pid ∈ seen
        · simp only [dedupIds, hid, if_pos hmem]
          rw [ih seen, if_pos hmem]
        · simp only [dedupIds, hid, if_neg hmem]
          rw [List.filter_cons, if_pos hp, ih (pid :: seen),
            if_pos (List.mem_cons_self pid seen), List.find?_cons_of_pos _ hp]
          rfl
      · have hp : hasId v plan = false := by simp [hasId, hid, hvp]
        have hfind : (plan :: rest).find? (hasId v) = rest.find? (hasId v) :=
          List.find?_cons_of_neg _ (by simp [hp])
        by_cases hmem : pid ∈ seen
        · simp only [dedupIds, hid, if_pos hmem]
          rw [ih seen, hfind]
        · simp only [dedupIds, hid, if_neg hmem]
          rw [List.filter_cons, if_neg (by simp [hp]), ih (pid :: seen), hfind]
          by_cases hv : v ∈ seen
          · rw [if_pos (List.mem_cons_of_mem _ hv), if_pos hv]
          · have h1 : ¬ v ∈ pid :: seen := by
              intro h
              rcases List.mem_cons.mp h with h2 | h3
              · exact hvp h2.symm
              · exact hv h3
            rw [if_neg h1, if_neg hv]
    | none =>
      have hp : hasId v plan = false := by simp [hasId, hid]
      have hfind : (plan :: rest).find? (hasId v) = rest.find? (hasId v) :=
        List.find?_cons_of_neg _ (by simp [hp])
      simp only [dedupIds, hid]
      rw [List.filter_cons, if_neg (by simp [hp]), ih seen, hfind]

theorem dedupIds_filter_none :
    ∀ (l : List Plan) (seen : List Value),
      (dedupIds seen l).1.filter noId = l.filter noId := by
  intro l
  induction l with
  | nil => intro seen; rfl
  | cons plan rest ih =>
    intro seen
    cases hid : plan.id with
    | some pid =>
      have hnp : noId plan = false := by simp [noId, hid]
      have hr : (plan :: rest).filter noId = rest.filter noId := by
        rw [List.filter_cons, if_neg (by simp [hnp])]
      by_cases hmem : pid ∈ seen
      · simp only [dedupIds, hid, if_pos hmem]
        rw [ih seen, hr]
      · simp only [dedupIds, hid, if_neg hmem]
        rw [List.filter_cons, if_neg (by simp [hnp]), ih (pid :: seen), hr]
    | none =>
      have hnp : noId plan = true := by simp [noId, hid]
      have hr : (plan :: rest).filter noId = plan :: rest.filter noId := by
        rw [List.filter_cons, if_pos hnp]
      simp only [dedupIds, hid]
      rw [List.filter_cons, if_pos hnp, ih seen, hr]

theorem collectPages_erase (resp : ℕ → PageResponse) :
    ∀ (c p : ℕ) (seen : List Value),
      (collectPages resp p c seen).1.map Prod.fst = (dedupIds seen (pageStream resp p c)).1 ∧
      (collectPages resp p c seen).2 = (dedupIds seen (pageStream resp p c)).2 := by
  intro c
  induction c with
  | zero => intro p seen; exact ⟨rfl, rfl⟩
  | succ c ih =>
    intro p seen
    have hd := dedupPlans_erase (resp p).providers (combinedPlans (resp p)) seen
    simp only [collectPages, pageStream]
    constructor
    · rw [List.map_append, hd.1, hd.2,
        (ih (p+1) ((dedupIds seen (combinedPlans (resp p))).2)).1, dedupIds_append]
    · rw [hd.2, (ih (p+1) ((dedupIds seen (combinedPlans (resp p))).2)).2, dedupIds_append]

theorem iterLoop_some_eq (resp : ℕ → PageResponse) (n : Int) :
    ∀ (fuel p : ℕ) (seen : List Value), (n + 1 - (p : Int)).toNat ≤ fuel →
      iterLoop resp fuel p (some n) seen =
        (List.range' p (n + 1 - (p : Int)).toNat,
         (collectPages resp p (n + 1 - (p : Int)).toNat seen).1,
         false) := by
  intro fuel
  induction fuel with
  | zero =>
    intro p seen h
    have h0 : (n + 1 - (p : Int)).toNat = 0 := Nat.le_zero.mp h
    rw [h0]
    rfl
  | succ fuel ih =>
    intro p seen h
    by_cases hpn : (p : Int) ≤ n
    · have hk : (n + 1 - (p : Int)).toNat = (n + 1 - ((p + 1 : ℕ) : Int)).toNat + 1 := by
        push_cast
        omega
      have hf : (n + 1 - ((p + 1 : ℕ) : Int)).toNat ≤ fuel := by
        push_cast at hk ⊢
        omega
      simp only [iterLoop, if_pos hpn]
      rw [ih (p+1) ((dedupPlans (resp p).providers seen (combinedPlans (resp p))).2) hf, hk]
      rfl
    · have h0 : (n + 1 - (p : Int)).toNat = 0 := by omega
      simp only [iterLoop, if_neg hpn]
      rw [h0]
      rfl

theorem iter_country_plans_eq (resp : ℕ → PageResponse) :
    iter_country_plans resp =
      (List.range' 1 (totalPages resp),
       (collectPages resp 1 (totalPages resp) []).1,
       (parseNumberOfPages (resp 1).numberOfPages).2) := by
  unfold iter_country_plans
  simp only [iterLoop]
  have hcond : ((parseNumberOfPages (resp 1).numberOfPages).1 + 1 - ((2 : ℕ) : Int)).toNat
      ≤ (parseNumberOfPages (resp 1).numberOfPages).1.toNat := by
    push_cast
    omega
  rw [iterLoop_some_eq resp ((parseNumberOfPages (resp 1).numberOfPages).1)
    ((parseNumberOfPages (resp 1).numberOfPages).1.toNat) 2
    ((dedupPlans (resp 1).providers [] (combinedPlans (resp 1))).2) hcond]
  have htp : totalPages resp =
      ((parseNumberOfPages (resp 1).numberOfPages).1 + 1 - ((2 : ℕ) : Int)).toNat + 1 := by
    unfold totalPages numPagesVal
    push_cast
    omega
  rw [htp]
  simp only [collectPages, List.range', Bool.or_false]

theorem getJsonLoop_all_fail {E V : Type} (retries : ℕ) (delay : ℚ)
    (errv : ℕ → E) (jitter : ℕ → ℚ) :
    ∀ (l : List ℕ), (∀ b ∈ l, b ≠ retries - 1) →
      @getJsonLoop E V retries delay (fun k => Except.error (errv k)) jitter
          (l ++ [retries - 1]) =
        (l.map (fun a => delay * 2 ^ a + jitter a), Except.error (errv (retries - 1))) := by
  intro l
  induction l with
  | nil =>
    intro _
    simp only [List.nil_append, getJsonLoop, List.map_nil, if_true]
  | cons a l ih =>
    intro hb
    have ha : a ≠ retries - 1 := hb a (List.mem_cons_self a l)
    simp only [List.cons_append, getJsonLoop, List.map_cons, List.append_eq]
    rw [if_neg ha, ih (fun b h => hb b (List.mem_cons_of_mem _ h))]

theorem tallyOutcomes_append_error (e : String) :
    ∀ (pre post : List (Except String (Bool × ℕ))),
      tallyOutcomes (pre ++ Except.error e :: post) =
        ((tallyOutcomes (pre ++ post)).1,
         (tallyOutcomes (pre ++ post)).2.1 + 1,
         (tallyOutcomes (pre ++ post)).2.2) := by
  intro pre
  induction pre with
  | nil =>
    intro post
    simp only [List.nil_append, tallyOutcomes]
  | cons o pre ih =>
    intro post
    cases o with
    | ok r =>
      by_cases hr : r.1 = true
      · simp only [List.cons_append, List.append_eq, tallyOutcomes, ih post, if_pos hr]
      · simp only [List.cons_append, List.append_eq, tallyOutcomes, ih post, if_neg hr]
    | error e2 =>
      simp only [List.cons_append, List.append_eq, tallyOutcomes, ih post]

theorem tallyOutcomes_length :
    ∀ (os : List (Except String (Bool × ℕ))),
      (tallyOutcomes os).1 + (tallyOutcomes os).2.1 = os.length := by
  intro os
  induction os with
  | nil => rfl
  | cons o rest ih =>
    cases o with
    | ok r =>
      by_cases hr : r.1 = true
      · simp only [tallyOutcomes, if_pos hr, List.length_cons]
        omega
      · simp only [tallyOutcomes, if_neg hr, List.length_cons]
        omega
    | error e =>
      simp only [tallyOutcomes, List.length_cons]
      omega

theorem name_roundtrip (s : String) (hfix : pyStrip s = s) (p : Plan)
    (he : p.enName = some (Value.vstr s)) (hn : p.name = none) :
    validate_plan_name p = s := by
  unfold validate_plan_name
  rw [he, hn]
  unfold pyOr
  dsimp only
  by_cases hs : s = ""
  · subst hs
    simp [pyTruthy, pyStrip_empty]
  · have ht : pyTruthy (Value.vstr s) = true := by simp [pyTruthy, hs]
    simp [ht, hfix]

theorem price_roundtrip (p : Plan) (x : Option ℚ)
    (hpromo : p.usdPromoPrice = none) (husd : p.usdPrice = x.map Value.vfloat)
    (hprices : p.prices = none)
    (hx : x = none ∨ ∃ q, x = some q ∧ 0 ≤ q ∧ round2 q = q) :
    validate_price p = x := by
  unfold validate_price selected_price
  rw [hpromo, husd, hprices]
  rcases hx with h | ⟨q, hq, hqn, hqr⟩
  · subst h
    rfl
  · subst hq
    dsimp [pyFloat?]
    rw [if_neg (not_lt.mpr hqn), hqr]

theorem capacity_roundtrip (p : Plan) (x : Option ℚ)
    (hcap : p.capacity = x.map Value.vfloat)
    (hunit : p.capacityUnit = some (Value.vstr ("gb")))
    (hx : x = none ∨ ∃ q, x = some q ∧ 0 ≤ q ∧ round2 q = q) :
    validate_data_capacity p = x := by
  unfold validate_data_capacity
  rw [hcap, hunit]
  rcases hx with h | ⟨q, hq, hqn, hqr⟩
  · subst h
    rfl
  · subst hq
    dsimp [pyFloat?]
    rw [if_neg (not_lt.mpr hqn)]
    have hconv : convertCapacity (some (Value.vstr ("gb"))) q = q := by
      unfold convertCapacity
      dsimp only
      rw [if_neg (by decide), if_pos (by decide)]
    rw [hconv, hqr]

theorem validity_roundtrip (p : Plan) (x : Option Int)
    (hper : p.period = x.map Value.vint)
    (hx : x = none ∨ ∃ n, x = some n ∧ 0 ≤ n) :
    validate_validity_period p = x := by
  unfold validate_validity_period
  rw [hper]
  rcases hx with h | ⟨n, hn, hnn⟩
  · subst h
    rfl
  · subst hn
    dsimp [pyInt?]
    rw [if_neg (by omega)]

/-- C1: across one entity's full paginated traversal (both the primary and
featured subsets, in page order), a record with a non-null id is yielded at
most once — exactly at its first occurrence in the merged stream — while
every record with a null or absent id bypasses deduplication and is always
yielded. -/
theorem c1_dedup_stream (resp : ℕ → PageResponse) (v : Value) :
    (((iter_country_plans resp).2.1.map Prod.fst).filter (hasId v) =
      ((pageStream resp 1 (totalPages resp)).find? (hasId v)).toList) ∧
    (((iter_country_plans resp).2.1.map Prod.fst).filter noId =
      (pageStream resp 1 (totalPages resp)).filter noId) := by
  rw [iter_country_plans_eq]
  dsimp only
  rw [(collectPages_erase resp (totalPages resp) 1 []).1]
  constructor
  · rw [dedupIds_filter_some v (pageStream resp 1 (totalPages resp)) []]
    rw [if_neg (List.not_mem_nil v)]
  · exact dedupIds_filter_none (pageStream resp 1 (totalPages resp)) []

/-- C2: for a plan whose capacity field casts to a non-negative number c,
`validate_data_capacity` returns round2 c when the unit tag lower-cases to
a gigabyte-class string, round2 (c/1000) when it lower-cases to anything
else (megabyte-class or unrecognized, the latter with a warning), and
applies the ≤ 25 heuristic when the unit tag is absent or not a string. -/
theorem c2_capacity_conversion (plan : Plan) (v : Value) (c : ℚ)
    (hcap : plan.capacity = some v) (hnum : pyFloat? v = some c) (hnn : 0 ≤ c) :
    (∀ u : String, plan.capacityUnit = some (.vstr u) →
      (lowerStr u = ("gb").data ∨ lowerStr u = ("gib").data) →
      validate_data_capacity plan = some (round2 c)) ∧
    (∀ u : String, plan.capacityUnit = some (.vstr u) →
      ¬ (lowerStr u = ("gb").data ∨ lowerStr u = ("gib").data) →
      validate_data_capacity plan = some (round2 (c / 1000))) ∧
    ((∀ u : String, plan.capacityUnit ≠ some (.vstr u)) →
      validate_data_capacity plan =
        if c ≤ 25 then some (round2 c) else some (round2 (c / 1000))) := by
  have hbase : validate_data_capacity plan =
      some (round2 (convertCapacity plan.capacityUnit c)) := by
    unfold validate_data_capacity
    rw [hcap]
    dsimp only
    rw [hnum]
    dsimp only
    rw [if_neg (not_lt.mpr hnn)]
  refine ⟨?_, ?_, ?_⟩
  · intro u hu hgb
    have hmb : ¬ (lowerStr u = ("mb").data ∨ lowerStr u = ("mib").data) := by
      rcases hgb with h | h <;> rw [h] <;> decide
    rw [hbase, hu]
    unfold convertCapacity
    dsimp only
    rw [if_neg hmb, if_pos hgb]
  · intro u hu hngb
    rw [hbase, hu]
    unfold convertCapacity
    dsimp only
    by_cases hmb : lowerStr u = ("mb").data ∨ lowerStr u = ("mib").data
    · rw [if_pos hmb]
    · rw [if_neg hmb, if_neg hngb]
  · intro hnu
    rw [hbase]
    have hcc : convertCapacity plan.capacityUnit c = if c ≤ 25 then c else c / 1000 := by
      unfold convertCapacity
      cases hcu : plan.capacityUnit with
      | none => rfl
      | some w =>
        cases w with
        | vstr u => exact absurd hcu (hnu u)
        | vnull => rfl
        | vbool b => rfl
        | vint n => rfl
        | vfloat q => rfl
    rw [hcc]
    by_cases hc : c ≤ 25
    · rw [if_pos hc, if_pos hc]
    · rw [if_neg hc, if_neg hc]

/-- C2 witness: capacity 500 with no unit tag takes the heuristic path and
yields 0.5 GB. -/
theorem c2_capacity_conversion_witness :
    plan500.capacity = some (Value.vint 500) ∧
    pyFloat? (Value.vint 500) = some 500 ∧ (0 : ℚ) ≤ 500 ∧
    validate_data_capacity plan500 = some (1 / 2) := by
  refine ⟨rfl, by decide, by norm_num, ?_⟩
  have h := (c2_capacity_conversion plan500 (Value.vint 500) 500 rfl (by decide)
    (by norm_num)).2.2 (fun u => by simp [plan500, emptyPlan])
  rw [h, if_neg (by norm_num)]
  norm_num [round2, round_eq]

/-- C3: `validate_price` selects the first non-null of the promo price, the
standard price, and the USD entry of the price map; an absent selection, a
non-castable value, or a negative value yields null; otherwise the result
is the value rounded to 2 decimal places, zero included. -/
theorem c3_price_selection (plan : Plan) :
    (selected_price plan = none → validate_price plan = none) ∧
    (∀ v, selected_price plan = some v → pyFloat? v = none →
      validate_price plan = none) ∧
    (∀ v x, selected_price plan = some v → pyFloat? v = some x → x < 0 →
      validate_price plan = none) ∧
    (∀ v x, selected_price plan = some v → pyFloat? v = some x → 0 ≤ x →
      validate_price plan = some (round2 x)) ∧
    (∀ v, plan.usdPromoPrice = some v → selected_price plan = some v) ∧
    (∀ v, plan.usdPromoPrice = none → plan.usdPrice = some v →
      selected_price plan = some v) ∧
    (plan.usdPromoPrice = none → plan.usdPrice = none →
      selected_price plan = priceMapGet (plan.prices.getD []) ("USD")) := by
  refine ⟨?_, ?_, ?_, ?_, ?_, ?_, ?_⟩
  · intro h
    unfold validate_price
    rw [h]
  · intro v hs hf
    unfold validate_price
    rw [hs]
    dsimp only
    rw [hf]
  · intro v x hs hf hneg
    unfold validate_price
    rw [hs]
    dsimp only
    rw [hf]
    dsimp only
    rw [if_pos hneg]
  · intro v x hs hf hnn
    unfold validate_price
    rw [hs]
    dsimp only
    rw [hf]
    dsimp only
    rw [if_neg (not_lt.mpr hnn)]
  · intro v h
    unfold selected_price
    rw [h]
  · intro v h1 h2
    unfold selected_price
    rw [h1, h2]
  · intro h1 h2
    unfold selected_price
    rw [h1, h2]

/-- C3 witness: a zero promo price is selected first and survives as a
valid price of 0. -/
theorem c3_price_selection_witness : validate_price plan_zero_price = some 0 := by
  have h := (c3_price_selection plan_zero_price).2.2.2.1 (Value.vint 0) 0 rfl
    (by decide) le_rfl
  rw [h]
  norm_num [round2, round_eq]

/-- C4 counterexample: with 3 attempts, base delay 1 and zero jitter, all
attempts failing, the recorded sleeps are [1, 2]; the delay before attempt
1 (0-indexed) is therefore 1, but the claimed formula base·2^1 + u with
u ≥ 0 is at least 2, so the claimed schedule is off by one. -/
theorem c4_retry_counterexample :
    (@get_json ℕ ℕ 3 1 (fun _ => Except.error 0) (fun _ => 0)).1 = [1, 2] ∧
    ¬ ∃ u : ℚ, 0 ≤ u ∧
      (@get_json ℕ ℕ 3 1 (fun _ => Except.error 0) (fun _ => 0)).1.get? 0 =
        some (1 * 2 ^ 1 + u) := by
  have h1 : (@get_json ℕ ℕ 3 1 (fun _ => Except.error 0) (fun _ => 0)).1 = [1, 2] := by
    have hr : List.range 3 = [0, 1, 2] := by decide
    unfold get_json
    rw [hr]
    norm_num [getJsonLoop]
  refine ⟨h1, ?_⟩
  rintro ⟨u, hu, hget⟩
  rw [h1] at hget
  simp only [List.get?] at hget
  have h2 : (1 : ℚ) = 1 * 2 ^ 1 + u := Option.some.inj hget
  norm_num at h2
  linarith

/-- C4 (amended): up to N attempts are made; after failed attempt k
(0-indexed, k < N-1) the function sleeps base·2^k + uniform(0, base)
before attempt k+1, and no delay precedes attempt 0; when every attempt
fails, the function raises carrying the last attempt's exception. -/
theorem c4_retry_schedule {E V : Type} (retries : ℕ) (delay : ℚ)
    (errv : ℕ → E) (jitter : ℕ → ℚ) (hret : 1 ≤ retries) :
    (@get_json E V retries delay (fun k => Except.error (errv k)) jitter).1 =
      (List.range (retries - 1)).map (fun k => delay * 2 ^ k + jitter k) ∧
    (@get_json E V retries delay (fun k => Except.error (errv k)) jitter).2 =
      Except.error (errv (retries - 1)) := by
  obtain ⟨m, rfl⟩ : ∃ m, retries = m + 1 := ⟨retries - 1, by omega⟩
  simp only [Nat.add_sub_cancel]
  unfold get_json
  rw [List.range_succ]
  have hall := @getJsonLoop_all_fail E V (m + 1) delay errv jitter (List.range m)
    (fun b hb => by have hb2 := List.mem_range.mp hb; omega)
  simp only [Nat.add_sub_cancel] at hall
  rw [hall]
  exact ⟨rfl, rfl⟩

/-- C4 witness: three failing attempts with base delay 1 and zero jitter
sleep exactly [1, 2] and surface the last attempt's error. -/
theorem c4_retry_schedule_witness :
    (@get_json ℕ ℕ 3 1 (fun k => Except.error k) (fun _ => 0)).1 = [1, 2] ∧
    (@get_json ℕ ℕ 3 1 (fun k => Except.error k) (fun _ => 0)).2 =
      Except.error 2 := by
  have h := @c4_retry_schedule ℕ ℕ 3 1 (fun k => k) (fun _ => 0) (by norm_num)
  refine ⟨h.1.trans ?_, h.2⟩
  have hr : List.range (3 - 1) = [0, 1] := by decide
  rw [hr]
  norm_num

/-- C5 counterexample: when the first page declares `numberOfPages = 0` the
traversal still fetches page 1 — a page index greater than the declared
count — so it does not stop after exactly N pages nor avoid indices beyond
N; and when the field is absent, the default of 1 is applied without any
warning, contradicting the claimed warning on absence. -/
theorem c5_pagination_counterexample :
    (numPagesVal resp_np_zero = 0 ∧ (iter_country_plans resp_np_zero).1 = [1]) ∧
    ((resp_np_absent 1).numberOfPages = none ∧
      (iter_country_plans resp_np_absent).2.2 = false) := by
  exact ⟨⟨by decide, by decide⟩, ⟨rfl, by decide⟩⟩

/-- C5 (amended): pages are fetched in strict order 1, 2, …, stopping after
exactly max(N, 1) pages, where N is the `int()` of the first page's
`numberOfPages` field; an absent field defaults to 1 silently, an
unparseable one defaults to 1 with a warning; no page index beyond
max(N, 1) is ever fetched. -/
theorem c5_pagination (resp : ℕ → PageResponse) :
    (iter_country_plans resp).1 = List.range' 1 (totalPages resp) ∧
    totalPages resp = (max (numPagesVal resp) 1).toNat ∧
    (iter_country_plans resp).2.2 = (parseNumberOfPages (resp 1).numberOfPages).2 ∧
    parseNumberOfPages none = (1, false) ∧
    (∀ w : Value, parseNumberOfPages (some w) =
      ((pyInt? w).getD 1, (pyInt? w).isNone)) := by
  refine ⟨?_, rfl, ?_, rfl, ?_⟩
  · rw [iter_country_plans_eq]
  · rw [iter_country_plans_eq]
  · intro w
    cases h : pyInt? w with
    | none => simp [parseNumberOfPages, h]
    | some n => simp [parseNumberOfPages, h]

/-- C6: an exception collected for one entity contributes exactly one
failed count to the run summary and changes nothing else — the remaining
outcomes are tallied as if the failing entity were absent — and every
outcome in the completion-order list is accounted for (successful + failed
equals the number of entities), so one failure never aborts the run. -/
theorem c6_failure_isolation (pre post : List (Except String (Bool × ℕ)))
    (e : String) (os : List (Except String (Bool × ℕ))) :
    tallyOutcomes (pre ++ Except.error e :: post) =
      ((tallyOutcomes (pre ++ post)).1,
       (tallyOutcomes (pre ++ post)).2.1 + 1,
       (tallyOutcomes (pre ++ post)).2.2) ∧
    (tallyOutcomes os).1 + (tallyOutcomes os).2.1 = os.length :=
  ⟨tallyOutcomes_append_error e pre post, tallyOutcomes_length os⟩

/-- C7 counterexample: with the shutdown flag already set, the orchestrator
still submits the entity pipeline — it launches a new pipeline after
cancellation was requested, contradicting the claim that none is
launched. -/
theorem c7_cancellation_counterexample :
    submitted_pipelines true [demo_country] = [demo_country] ∧
    submitted_pipelines true [demo_country] ≠ [] :=
  ⟨rfl, by simp [submitted_pipelines]⟩

/-- C7 (amended): the orchestrator never observes the cancellation flag:
every entity pipeline is submitted regardless of the flag and runs to
completion; the flag is read only after the scraper returns, mapping a
completed run to exit code 130 instead of 0 (and an uncaught interrupt or
failure to 130 or 1). -/
theorem c7_cancellation (b : Bool) (countries : List Country) :
    submitted_pipelines b countries = countries ∧
    run_scraper true ScraperResult.ok = 130 ∧
    run_scraper false ScraperResult.ok = 0 ∧
    run_scraper b ScraperResult.keyboardInterrupt = 130 ∧
    run_scraper b ScraperResult.failure = 1 :=
  ⟨rfl, rfl, rfl, rfl, rfl⟩

/-- C8: normalization is idempotent — feeding the source fields
reconstructed from an already-normalized record (plan name, price,
capacity in gigabytes, validity period) back through validate_plan yields
the same normalized output. -/
theorem c8_normalization_idempotent (plan : Plan) (prov cn cr : String) :
    validate_plan (reconstructed_plan (validate_plan plan prov cn cr)) prov cn cr =
      validate_plan plan prov cn cr := by
  unfold validate_plan
  congr 1
  · exact name_roundtrip (validate_plan_name plan) (validate_plan_name_fixed plan)
      _ rfl rfl
  · exact price_roundtrip _ (validate_price plan) rfl rfl rfl
      (validate_price_cases plan)
  · exact capacity_roundtrip _ (validate_data_capacity plan) rfl rfl
      (validate_data_capacity_cases plan)
  · exact validity_roundtrip _ (validate_validity_period plan) rfl
      (validate_validity_period_cases plan)

/-- C9: with an empty collected record sequence, scrape_country reports
success with count zero, performs no write, and leaves any pre-existing
filesystem contents unchanged. -/
theorem c9_empty_no_write (country : Country) (d : String)
    (fs : String → Option (List StampedRow)) :
    (scrape_country country [] d).1 = (true, 0) ∧
    (scrape_country country [] d).2 = [] ∧
    applyWrites (scrape_country country [] d).2 fs = fs :=
  ⟨rfl, rfl, rfl⟩

/-- C10: whenever scrape_country returns (normally), the success flag of
its result is true for every input — a failed entity outcome can only
arise from a propagated exception, never from the return value. -/
theorem c10_success_flag (country : Country) (stream : List (Plan × String))
    (d : String) :
    (scrape_country country stream d).1.1 = true := by
  simp only [scrape_country]
  split
  · rfl
  · rfl
